import Mathlib

/-!
# Verification of the sandbox JSON-RPC serve layer

A shallow embedding of `src/serve.rs` (the ledger-snapshot / transaction
execution orchestration layer of the sandbox CLI), together with proofs of
the specified properties of transaction parsing, hashing, execution,
status tracking and JSON-RPC dispatch.

External collaborators (the XDR wire codec, the contract execution engine,
and the snapshot store, which are outside the provided sources) are
modelled at their interface boundary; everything in `serve.rs` itself is
translated definition by definition.
-/

namespace Serve


instance {ε α : Type} [DecidableEq ε] [DecidableEq α] : DecidableEq (Except ε α)
  | .ok a, .ok b => decidable_of_iff (a = b) (by simp)
  | .ok _, .error _ => isFalse (fun h => Except.noConfusion h)
  | .error _, .ok _ => isFalse (fun h => Except.noConfusion h)
  | .error a, .error b => decidable_of_iff (a = b) (by simp)

/-! ## SHA-256 (FIPS 180-4), over `Nat` with explicit wrap-around at 2^32.

`serve.rs` uses the external `sha2` crate (`Sha256`) as its hashing
primitive; this is a complete executable model of that primitive.
Bytes are `Nat`s in `[0, 256)`, words are `Nat`s in `[0, 2^32)`. -/

def w32 : Nat := 4294967296

def rotr32 (n x : Nat) : Nat := ((x >>> n) ||| (x <<< (32 - n))) % w32

def shaCh (x y z : Nat) : Nat := (x &&& y) ^^^ ((x ^^^ (w32 - 1)) &&& z)

def shaMaj (x y z : Nat) : Nat := (x &&& y) ^^^ (x &&& z) ^^^ (y &&& z)

def bsig0 (x : Nat) : Nat := rotr32 2 x ^^^ rotr32 13 x ^^^ rotr32 22 x

def bsig1 (x : Nat) : Nat := rotr32 6 x ^^^ rotr32 11 x ^^^ rotr32 25 x

def ssig0 (x : Nat) : Nat := rotr32 7 x ^^^ rotr32 18 x ^^^ (x >>> 3)

def ssig1 (x : Nat) : Nat := rotr32 17 x ^^^ rotr32 19 x ^^^ (x >>> 10)

/-- The 64 SHA-256 round constants (FIPS 180-4 §4.2.2: the first 32 bits
of the fractional parts of the cube roots of the first 64 primes), written
in decimal. -/
def sha256K : List Nat :=
  [1116352408, 1899447441, 3049323471, 3921009573, 961987163, 1508970993,
   2453635748, 2870763221, 3624381080, 310598401, 607225278, 1426881987,
   1925078388, 2162078206, 2614888103, 3248222580, 3835390401, 4022224774,
   264347078, 604807628, 770255983, 1249150122, 1555081692, 1996064986,
   2554220882, 2821834349, 2952996808, 3210313671, 3336571891, 3584528711,
   113926993, 338241895, 666307205, 773529912, 1294757372, 1396182291,
   1695183700, 1986661051, 2177026350, 2456956037, 2730485921, 2820302411,
   3259730800, 3345764771, 3516065817, 3600352804, 4094571909, 275423344,
   430227734, 506948616, 659060556, 883997877, 958139571, 1322822218,
   1537002063, 1747873779, 1955562222, 2024104815, 2227730452, 2361852424,
   2428436474, 2756734187, 3204031479, 3329325298]

/-- The eight initial hash values (FIPS 180-4 §5.3.3: the first 32 bits of
the fractional parts of the square roots of the first 8 primes), written
in decimal. -/
def sha256Init : List Nat :=
  [1779033703, 3144134277, 1013904242, 2773480762,
   1359893119, 2600822924, 528734635, 1541459225]

/-- Big-endian 8-byte serialization of a 64-bit value. -/
def be64 (n : Nat) : List Nat :=
  [(n >>> 56) % 256, (n >>> 48) % 256, (n >>> 40) % 256, (n >>> 32) % 256,
   (n >>> 24) % 256, (n >>> 16) % 256, (n >>> 8) % 256, n % 256]

/-- Big-endian 4-byte serialization of a 32-bit word. -/
def be32 (n : Nat) : List Nat :=
  [(n >>> 24) % 256, (n >>> 16) % 256, (n >>> 8) % 256, n % 256]

/-- FIPS 180-4 §5.1.1 padding: append `0x80`, zero bytes to 56 mod 64, then
the 64-bit big-endian bit length. -/
def sha256Pad (msg : List Nat) : List Nat :=
  let L := msg.length
  let k := (64 + 56 - ((L + 1) % 64)) % 64
  msg ++ (0x80 :: List.replicate k 0) ++ be64 (8 * L)

/-- Pack big-endian byte quadruples into 32-bit words. -/
def bytesToWords : List Nat → List Nat
  | a :: b :: c :: d :: rest => (((a * 256 + b) * 256 + c) * 256 + d) :: bytesToWords rest
  | _ => []

/-- Extend a 16-word block to the 64-word message schedule by appending
`n` further words (FIPS 180-4 §6.2.2 step 1). -/
def shaExtend : List Nat → Nat → List Nat
  | ws, 0 => ws
  | ws, Nat.succ n =>
    let i := ws.length
    let wNew := (ws.getD (i - 16) 0 + ssig0 (ws.getD (i - 15) 0) +
                 ws.getD (i - 7) 0 + ssig1 (ws.getD (i - 2) 0)) % w32
    shaExtend (ws ++ [wNew]) n

/-- One round of the SHA-256 compression function. -/
def shaRound (st : List Nat) (kw : Nat × Nat) : List Nat :=
  match st with
  | [a, b, c, d, e, f, g, h] =>
    let t1 := (h + bsig1 e + shaCh e f g + kw.1 + kw.2) % w32
    let t2 := (bsig0 a + shaMaj a b c) % w32
    [(t1 + t2) % w32, a, b, c, ((d + t1) % w32), e, f, g]
  | other => other

/-- Compress one 16-word block into the running state. -/
def shaCompress (hstate : List Nat) (block : List Nat) : List Nat :=
  let ws := shaExtend block 48
  let final := (sha256K.zip ws).foldl shaRound hstate
  (hstate.zip final).map (fun p => (p.1 + p.2) % w32)

/-- Fold `n` 16-word blocks of `ws` into the state. -/
def shaBlocks (hstate : List Nat) (ws : List Nat) : Nat → List Nat
  | 0 => hstate
  | Nat.succ n => shaBlocks (shaCompress hstate (ws.take 16)) (ws.drop 16) n

/-- Serialize the eight-word state to 32 big-endian bytes. -/
def stateBytes (ws : List Nat) : List Nat := ws.foldr (fun w acc => be32 w ++ acc) []

/-- SHA-256 of a byte sequence. -/
def sha256 (msg : List Nat) : List Nat :=
  let padded := sha256Pad msg
  let ws := bytesToWords padded
  stateBytes (shaBlocks sha256Init ws (ws.length / 16))

/-! ## Hex encoding (models the `hex` crate's lowercase `hex::encode`) and
hex decoding (for `utils::contract_id_from_str`). -/

def hexDigitChar (n : Nat) : Char := if n < 10 then Char.ofNat (48 + n) else Char.ofNat (87 + n)

/-- Lowercase hex encoding of a byte sequence, as `hex::encode` produces. -/
def hexEncode (bs : List Nat) : String :=
  String.mk (bs.foldr (fun b acc => hexDigitChar (b / 16) :: hexDigitChar (b % 16) :: acc) [])

def hexDigitVal (c : Char) : Option Nat :=
  if 48 ≤ c.toNat ∧ c.toNat ≤ 57 then some (c.toNat - 48)
  else if 97 ≤ c.toNat ∧ c.toNat ≤ 102 then some (c.toNat - 87)
  else if 65 ≤ c.toNat ∧ c.toNat ≤ 70 then some (c.toNat - 55)
  else none

def hexDecodeChars : List Char → Option (List Nat)
  | [] => some []
  | c1 :: c2 :: rest =>
    match hexDigitVal c1, hexDigitVal c2, hexDecodeChars rest with
    | some h, some l, some bs => some ((16 * h + l) :: bs)
    | _, _, _ => none
  | _ => none

def hexDecode (s : String) : Option (List Nat) := hexDecodeChars s.data

/-! ## UTF-8 validation.

Models the check performed by Rust's `String::try_from(Vec<u8>)`
(i.e. `String::from_utf8`), used by `parse_transaction` to turn the
method-name parameter's bytes into a `String`. -/

def utf8Cont (b : Nat) : Bool := 128 ≤ b ∧ b ≤ 191

def utf8Valid : List Nat → Bool
  | [] => true
  | b :: rest =>
    if b ≤ 127 then utf8Valid rest
    else if 194 ≤ b ∧ b ≤ 223 then
      match rest with
      | c :: r => utf8Cont c && utf8Valid r
      | _ => false
    else if b = 224 then
      match rest with
      | c :: d :: r => (160 ≤ c ∧ c ≤ 191 : Bool) && utf8Cont d && utf8Valid r
      | _ => false
    else if 225 ≤ b ∧ b ≤ 236 then
      match rest with
      | c :: d :: r => utf8Cont c && utf8Cont d && utf8Valid r
      | _ => false
    else if b = 237 then
      match rest with
      | c :: d :: r => (128 ≤ c ∧ c ≤ 159 : Bool) && utf8Cont d && utf8Valid r
      | _ => false
    else if 238 ≤ b ∧ b ≤ 239 then
      match rest with
      | c :: d :: r => utf8Cont c && utf8Cont d && utf8Valid r
      | _ => false
    else if b = 240 then
      match rest with
      | c :: d :: e :: r => (144 ≤ c ∧ c ≤ 191 : Bool) && utf8Cont d && utf8Cont e && utf8Valid r
      | _ => false
    else if 241 ≤ b ∧ b ≤ 243 then
      match rest with
      | c :: d :: e :: r => utf8Cont c && utf8Cont d && utf8Cont e && utf8Valid r
      | _ => false
    else if b = 244 then
      match rest with
      | c :: d :: e :: r => (128 ≤ c ∧ c ≤ 143 : Bool) && utf8Cont d && utf8Cont e && utf8Valid r
      | _ => false
    else false

/-! ## XDR data model.

The fragments of the `stellar-xdr` types that `serve.rs` manipulates.
Fixed-size byte values (`Uint256`, `Hash`) are byte lists; variants whose
internal structure `serve.rs` never inspects are collapsed to an opaque
`other` constructor carrying a tag. -/

inductive ScObject where
  | bytes (b : List Nat)
  | other (tag : Nat)
deriving DecidableEq

inductive ScVal where
  | u63 (n : Int)
  | u32 (n : Nat)
  | i32 (n : Int)
  | static (s : Nat)
  | object (o : Option ScObject)
  | symbol (b : List Nat)
  | bitset (n : Nat)
  | status (s : Nat)
deriving DecidableEq

/-- The `ScSymbol` length bound (`VecM<u8, 10>`) enforced by
`String -> ScSymbol` conversion in the XDR crate. -/
def scSymbolLimit : Nat := 10

inductive HostFunction where
  | call
  | createContract
  | installContractCode
deriving DecidableEq

structure InvokeHostFunctionOp where
  function : HostFunction
  parameters : List ScVal
deriving DecidableEq

inductive MuxedAccount where
  | ed25519 (k : List Nat)
  | muxedEd25519 (i : Nat) (k : List Nat)
deriving DecidableEq

structure TimeBounds where
  min_time : Nat
  max_time : Nat
deriving DecidableEq

inductive Memo where
  | none
  | text (t : List Nat)
  | id (i : Nat)
  | hash (h : List Nat)
  | ret (h : List Nat)
deriving DecidableEq

inductive Preconditions where
  | none
  | time (tb : TimeBounds)
  | v2 (tag : Nat)
deriving DecidableEq

inductive TransactionExt where
  | v0
deriving DecidableEq

inductive OperationBody where
  | invokeHostFunction (op : InvokeHostFunctionOp)
  | other (tag : Nat)
deriving DecidableEq

structure Operation where
  source_account : Option MuxedAccount
  body : OperationBody
deriving DecidableEq

structure Transaction where
  source_account : MuxedAccount
  fee : Nat
  seq_num : Int
  cond : Preconditions
  memo : Memo
  operations : List Operation
  ext : TransactionExt
deriving DecidableEq

structure TransactionV0 where
  source_account_ed25519 : List Nat
  fee : Nat
  seq_num : Int
  time_bounds : Option TimeBounds
  memo : Memo
  operations : List Operation
deriving DecidableEq

structure TransactionV0Envelope where
  tx : TransactionV0
  signatures : List (List Nat)
deriving DecidableEq

structure TransactionV1Envelope where
  tx : Transaction
  signatures : List (List Nat)
deriving DecidableEq

inductive FeeBumpTransactionInnerTx where
  | tx (e : TransactionV1Envelope)
deriving DecidableEq

structure FeeBumpTransaction where
  fee_source : MuxedAccount
  fee : Int
  inner_tx : FeeBumpTransactionInnerTx
deriving DecidableEq

structure FeeBumpTransactionEnvelope where
  tx : FeeBumpTransaction
  signatures : List (List Nat)
deriving DecidableEq

inductive TransactionEnvelope where
  | txV0 (e : TransactionV0Envelope)
  | tx (e : TransactionV1Envelope)
  | txFeeBump (e : FeeBumpTransactionEnvelope)
deriving DecidableEq

inductive TransactionSignaturePayloadTaggedTransaction where
  | tx (t : Transaction)
  | txFeeBump (t : FeeBumpTransaction)
deriving DecidableEq

structure TransactionSignaturePayload where
  network_id : List Nat
  tagged_transaction : TransactionSignaturePayloadTaggedTransaction
deriving DecidableEq

structure LedgerKeyContractData where
  contract_id : List Nat
  key : ScVal
deriving DecidableEq

inductive LedgerKey where
  | contractData (d : LedgerKeyContractData)
  | other (tag : Nat)
deriving DecidableEq

structure ContractDataEntry where
  contract_id : List Nat
  key : ScVal
  val : ScVal
deriving DecidableEq

inductive LedgerEntryData where
  | contractData (e : ContractDataEntry)
  | other (tag : Nat)
deriving DecidableEq

/-- Is this ledger-entry payload of the `ContractData` kind? -/
def LedgerEntryData.isContractData : LedgerEntryData → Bool
  | .contractData _ => true
  | _ => false

structure LedgerEntry where
  last_modified_ledger_seq : Nat
  data : LedgerEntryData
deriving DecidableEq

inductive AccessType where
  | readOnly
  | readWrite
deriving DecidableEq

/-! ## The `Error` enum of `serve.rs`.

`HostError` payloads are collapsed to a numeric code; `XdrError` variants
are not distinguished by `serve.rs` (every validation failure it builds is
`XdrError::Invalid`), so the wrapped payloads are dropped. -/

inductive Error where
  | io
  | strVal
  | xdr
  | host (e : Nat)
  | snapshot
  | serde
  | fromHex
  | unknownMethod
deriving DecidableEq

/-- The `thiserror` display strings of the `Error` enum, used by
`reply` via `err.to_string()`. -/
def errMessage : Error → String
  | .io => "io"
  | .strVal => "strval"
  | .xdr => "xdr"
  | .host _ => "host"
  | .snapshot => "snapshot"
  | .serde => "serde"
  | .fromHex => "hex"
  | .unknownMethod => "unknownmethod"

/-- The `HostError` that `execute_transaction` substitutes when
`Host::try_finish` fails:
`ScStatus::HostStorageError(ScHostStorageErrorCode::UnknownError)`. -/
def hostStorageUnknownErr : Nat := 0

/-- The `HostError` raised by `Storage::get` on a missing key. -/
def hostStorageMissingErr : Nat := 1

/-! ## Interface models of the external collaborators. -/

/-- Interface model of the external XDR binary codec (the `ReadXdr` /
`WriteXdr` implementations of the `stellar-xdr` crate). The spec's §1
excludes the codec from the core and §6 only requires it to be
deterministic, so it is carried as an explicit parameter: decoding may
fail; serializing the signature payload is a total deterministic byte
function; serializing a ledger key or an `ScVal` to base64 may fail, as
`to_xdr_base64` returns a `Result` in the source. -/
structure XdrCodec where
  decodeEnv : String → Except Unit TransactionEnvelope
  decodeVal : String → Except Unit ScVal
  encPayload : TransactionSignaturePayload → List Nat
  encKey : LedgerKey → Except Unit String
  encVal : ScVal → Except Unit String

/-- Outcome of one engine run, covering the two failure points
`execute_transaction` distinguishes: `Host::invoke_function` returning an
error, and `Host::try_finish` failing; on success the engine yields the
result value, the recorded footprint, the post-execution storage access
map (`storage.map`, an entry or a deletion marker per touched key), and
the consumed budget counters. -/
inductive EngineOutcome where
  | invokeErr (e : Nat)
  | finishErr
  | success (res : ScVal) (footprint : List (LedgerKey × AccessType))
      (storageMap : List (LedgerKey × Option LedgerEntry)) (cpuInsns : Nat) (memBytes : Nat)

/-- Interface model of the external contract-execution engine (`Host` with
a footprint-recording `Storage`): a function from the invocation arguments
and the snapshot contents to an `EngineOutcome` (spec §6). -/
def Engine : Type := List ScVal → List (LedgerKey × LedgerEntry) → EngineOutcome

/-! ## Snapshot store (modelled from the spec). -/

/-- The persisted ledger file: missing, unparsable, or holding a
serialized key → entry map. -/
inductive SnapshotFile where
  | absent
  | corrupt
  | present (entries : List (LedgerKey × LedgerEntry))
deriving DecidableEq

/-- Modelled from the spec: `snapshot.rs` is not among the provided
sources. Per §4.1, `read` returns an empty snapshot when the file does not
exist, fails with a snapshot error when the file exists but cannot be
parsed, and otherwise returns the persisted map. -/
def snapshotRead : SnapshotFile → Except Error (List (LedgerKey × LedgerEntry))
  | .absent => .ok []
  | .corrupt => .error .snapshot
  | .present entries => .ok entries

/-- First-match association-list lookup over ledger keys. -/
def lookupKey : List (LedgerKey × LedgerEntry) → LedgerKey → Option LedgerEntry
  | [], _ => none
  | (k, e) :: rest, q => if k = q then some e else lookupKey rest q

/-- Replace the binding of `k` if present, else append it. -/
def setKey : List (LedgerKey × LedgerEntry) → LedgerKey → LedgerEntry →
    List (LedgerKey × LedgerEntry)
  | [], k, e => [(k, e)]
  | (k0, e0) :: rest, k, e =>
    if k0 = k then (k, e) :: rest else (k0, e0) :: setKey rest k e

/-- Drop every binding of `k`. -/
def removeKey (m : List (LedgerKey × LedgerEntry)) (k : LedgerKey) :
    List (LedgerKey × LedgerEntry) :=
  m.filter (fun p => decide (p.1 ≠ k))

/-- Modelled from the spec: `snapshot.rs` is not among the provided
sources. Per §4.1 commit merges the delta into the base — delta entries
override base entries for matching keys, keys not in the delta are
untouched — and per §4.2 a read-write access carrying a deletion marker
removes the key. -/
def snapshotCommit (base : List (LedgerKey × LedgerEntry))
    (delta : List (LedgerKey × Option LedgerEntry)) : List (LedgerKey × LedgerEntry) :=
  delta.foldl
    (fun acc kv =>
      match kv.2 with
      | some e => setKey acc kv.1 e
      | none => removeKey acc kv.1)
    base

/-- Interface model of `Storage::with_recording_footprint(snap)` followed
by `Storage::get(key)` in the external host crate: the key is looked up in
the snapshot; a missing key surfaces as a host storage error (spec §4.2:
the adapter signals "not found" if the key is absent). -/
def storageGet (entries : List (LedgerKey × LedgerEntry)) (k : LedgerKey) :
    Except Error LedgerEntry :=
  match lookupKey entries k with
  | some e => .ok e
  | none => .error (.host hostStorageMissingErr)

/-! ## JSON values (model of `serde_json::Value`). -/

inductive Json where
  | null
  | bool (b : Bool)
  | num (n : Int)
  | str (s : String)
  | arr (xs : List Json)
  | obj (fields : List (String × Json))

/-- First-match field lookup in a JSON object; `none` on non-objects. -/
def jGetField (j : Json) (name : String) : Option Json :=
  match j with
  | .obj fields => go fields
  | _ => none
where
  go : List (String × Json) → Option Json
    | [] => none
    | (n, v) :: rest => if n = name then some v else go rest

/-- The `"status"` field of a JSON value, when it is a string. -/
def jStatusField (j : Json) : Option String :=
  match jGetField j "status" with
  | some (.str s) => some s
  | _ => none

/-- The `error.code` field of a JSON value, when present. -/
def jErrCode (j : Json) : Option Int :=
  match jGetField j "error" with
  | some e =>
    match jGetField e "code" with
    | some (.num n) => some n
    | _ => none
  | _ => none

/-! ## JSON-RPC envelope (the `jsonrpc` module). -/

/-- Modelled from the spec: `jsonrpc.rs` is not among the provided
sources. §6 gives the request shape; `serve.rs` uses `jsonrpc::Id::Null`
as the fallback id and serializes ids as JSON values. -/
inductive Id where
  | num (n : Int)
  | str (s : String)
  | null
deriving DecidableEq

def idToJson : Id → Json
  | .num n => .num n
  | .str s => .str s
  | .null => .null

def optIdToJson : Option Id → Json
  | some i => idToJson i
  | none => .null

/-- The `Requests` params enum of `serve.rs`:
`GetContractData((String, String))` before `StringArg(Box<[String]>)`,
deserialized `#[serde(untagged)]`. -/
inductive Requests where
  | getContractData (p : String × String)
  | stringArg (xs : List String)
deriving DecidableEq

/-- Models the `#[serde(untagged)]` deserialization of `Requests` on a
JSON params array whose elements are all strings: serde tries the variants
in declaration order, the `GetContractData((String, String))` tuple
variant matches exactly a two-element array, and only arrays of other
lengths fall through to `StringArg`. -/
def paramsOfStringArray : List String → Requests
  | [a, b] => .getContractData (a, b)
  | xs => .stringArg xs

/-- Modelled from the spec: `jsonrpc.rs` is not among the provided
sources. §6: `{jsonrpc: "2.0", id, method, params}`. -/
structure Request where
  jsonrpc : String
  id : Option Id
  method : String
  params : Option Requests

/-- Modelled from the spec: `jsonrpc.rs` is not among the provided
sources. §6: a response is `{jsonrpc, id, result}` or
`{jsonrpc, id, error: {code, message}}`. -/
inductive Response where
  | ok (jsonrpc : String) (id : Id) (result : Json)
  | err (jsonrpc : String) (id : Id) (code : Int) (message : String)

def responseToJson : Response → Json
  | .ok j i r => .obj [("jsonrpc", .str j), ("id", idToJson i), ("result", r)]
  | .err j i c m =>
    .obj [("jsonrpc", .str j), ("id", idToJson i),
          ("error", .obj [("code", .num c), ("message", .str m)])]

/-! ## Transaction hashing (`hash_bytes`, `hash_transaction_in_envelope`). -/

/-- Function `hash_bytes` of `serve.rs`: SHA-256 of the input bytes
(a `Sha256` hasher fed once and finalized into a 32-byte array). -/
def hash_bytes (b : List Nat) : List Nat := sha256 b

/-- Function `hash_transaction_in_envelope` of `serve.rs`. The network passphrase
parameter is carried as its UTF-8 bytes. Payload serialization
(`payload.to_xdr()`) goes through the codec interface. -/
def hash_transaction_in_envelope (codec : XdrCodec) (envelope : TransactionEnvelope)
    (passphrase : List Nat) : List Nat :=
  let tagged_transaction : TransactionSignaturePayloadTaggedTransaction :=
    match envelope with
    | .txV0 envlp =>
      .tx { source_account := .ed25519 envlp.tx.source_account_ed25519
            fee := envlp.tx.fee
            seq_num := envlp.tx.seq_num
            cond := match envlp.tx.time_bounds with
                    | none => .none
                    | some time_bounds => .time time_bounds
            memo := envlp.tx.memo
            operations := envlp.tx.operations
            ext := .v0 }
    | .tx envlp => .tx envlp.tx
    | .txFeeBump envlp => .txFeeBump envlp.tx
  let network_id := hash_bytes passphrase
  let payload : TransactionSignaturePayload :=
    { network_id := network_id, tagged_transaction := tagged_transaction }
  let tx_bytes := codec.encPayload payload
  hash_bytes tx_bytes

/-- Spec-side definition (§4.4), for the refinement comparison with
`hash_transaction_in_envelope`: re-wrap the unsigned-legacy variant into
the canonical transaction shape, keep the signed transaction or the
fee-bump body as the tagged body. -/
def taggedTransactionOf : TransactionEnvelope → TransactionSignaturePayloadTaggedTransaction
  | .txV0 envlp =>
    .tx { source_account := .ed25519 envlp.tx.source_account_ed25519
          fee := envlp.tx.fee
          seq_num := envlp.tx.seq_num
          cond := match envlp.tx.time_bounds with
                  | none => .none
                  | some time_bounds => .time time_bounds
          memo := envlp.tx.memo
          operations := envlp.tx.operations
          ext := .v0 }
  | .tx envlp => .tx envlp.tx
  | .txFeeBump envlp => .txFeeBump envlp.tx

/-- Spec-side definition (§4.4): the transaction hash is SHA-256 of the
deterministically serialized signature payload embedding (a) the 32-byte
network identifier (SHA-256 of the passphrase's UTF-8 bytes) and (b) the
envelope's tagged transaction body. -/
def specTransactionHash (codec : XdrCodec) (envelope : TransactionEnvelope)
    (passphrase : List Nat) : List Nat :=
  let networkId := sha256 passphrase
  sha256 (codec.encPayload
    { network_id := networkId, tagged_transaction := taggedTransactionOf envelope })

/-! ## Transaction parsing (`parse_transaction`). -/

/-- The operations list of an envelope, per variant; for fee-bump, the
single-constructor `FeeBumpTransactionInnerTx::Tx` is unwrapped to the
inner transaction's operations (the `ops` match of `parse_transaction`). -/
def envOps : TransactionEnvelope → List Operation
  | .txV0 envlp => envlp.tx.operations
  | .tx envlp => envlp.tx.operations
  | .txFeeBump envlp =>
    match envlp.tx.inner_tx with
    | .tx tx_envelope => tx_envelope.tx.operations

/-- The dual-path method-name decode of `parse_transaction`: a raw byte
sequence (`ScVal::Object(Some(ScObject::Bytes(..)))`) is tried first, then
a symbol-typed value (`ScVal::Symbol`); either way the bytes must be valid
UTF-8 (`String::try_from`); any other shape is rejected. -/
def methodDecode : ScVal → Except Error (List Nat)
  | .object (some (.bytes bytes)) => if utf8Valid bytes then .ok bytes else .error .xdr
  | .symbol bytes => if utf8Valid bytes then .ok bytes else .error .xdr
  | _ => .error .xdr

/-- The validation-and-extraction body of `parse_transaction` on the
operations list: exactly one operation, which must be an
`InvokeHostFunction` with the generic `Call` selector and at least two
parameters; parameter 0 must be a byte object of exactly 32 bytes (the
contract id), parameter 1 the method name (`methodDecode`), and the
remaining parameters pass through unchanged. The method string is
re-wrapped as an `ScSymbol` (`method.try_into()`), which enforces the
symbol length bound. -/
def invocationOfOps (ops : List Operation) : Except Error (List ScVal) :=
  if ops.length ≠ 1 then .error .xdr
  else
    match ops.head? with
    | none => .error .xdr
    | some op =>
      match op.body with
      | .invokeHostFunction body =>
        if body.function ≠ .call then .error .xdr
        else if body.parameters.length < 2 then .error .xdr
        else
          match body.parameters with
          | contract_xdr :: method_xdr :: params =>
            (match contract_xdr with
             | .object (some (.bytes bytes)) =>
               if bytes.length = 32 then
                 match methodDecode method_xdr with
                 | .error e => .error e
                 | .ok method =>
                   if method.length ≤ scSymbolLimit then
                     .ok (.object (some (.bytes bytes)) :: .symbol method :: params)
                   else .error .xdr
               else .error .xdr
             | _ => .error .xdr)
          | _ => .error .xdr
      | _ => .error .xdr

/-- Function `parse_transaction` after the envelope has been decoded from base64:
compute the hash of the envelope, then validate and extract the canonical
invocation from its operations. -/
def parseDecoded (codec : XdrCodec) (transaction : TransactionEnvelope)
    (passphrase : List Nat) : Except Error (List Nat × List ScVal) :=
  let hash := hash_transaction_in_envelope codec transaction passphrase
  (invocationOfOps (envOps transaction)).map (fun args => (hash, args))

/-- Function `parse_transaction` of `serve.rs`: decode the base64 envelope
(`TransactionEnvelope::from_xdr_base64`, through the codec interface),
hash it, and validate it into `(hash, complete_args)`. -/
def parse_transaction (codec : XdrCodec) (txn_xdr : String) (passphrase : List Nat) :
    Except Error (List Nat × List ScVal) :=
  match codec.decodeEnv txn_xdr with
  | .error _ => .error .xdr
  | .ok transaction => parseDecoded codec transaction passphrase

/-! ## Execution orchestration (`execute_transaction`). -/

/-- The footprint loop of `execute_transaction`: serialize each accessed
key to base64, pushing into the read-only or read-write list according to
its access type, aborting on the first serialization failure. -/
def footprintLists (enc : LedgerKey → Except Unit String) :
    List (LedgerKey × AccessType) → Except Unit (List String × List String)
  | [] => .ok ([], [])
  | (k, v) :: rest =>
    match enc k with
    | .error e => .error e
    | .ok s =>
      match footprintLists enc rest with
      | .error e => .error e
      | .ok (read_only, read_write) =>
        match v with
        | .readOnly => .ok (s :: read_only, read_write)
        | .readWrite => .ok (read_only, s :: read_write)

/-- Function `execute_transaction` of `serve.rs`: read the snapshot, run the engine
over it, assemble cost and footprint, commit the storage delta over the
snapshot when (and only when) `commit` is true, and render the result.
The persisted file is threaded explicitly; the second component of the
result is its state after the call. -/
def execute_transaction (codec : XdrCodec) (engine : Engine) (args : List ScVal)
    (file : SnapshotFile) (commit : Bool) : Except Error Json × SnapshotFile :=
  match snapshotRead file with
  | .error e => (.error e, file)
  | .ok ledger_entries =>
    match engine args ledger_entries with
    | .invokeErr e => (.error (.host e), file)
    | .finishErr => (.error (.host hostStorageUnknownErr), file)
    | .success res footprint storageMap cpuInsns memBytes =>
      let cost : Json := .obj [("cpuInsns", .str (toString cpuInsns)),
                               ("memBytes", .str (toString memBytes))]
      match footprintLists codec.encKey footprint with
      | .error _ => (.error .xdr, file)
      | .ok (read_only, read_write) =>
        let file' := if commit then SnapshotFile.present (snapshotCommit ledger_entries storageMap)
                     else file
        match codec.encVal res with
        | .error _ => (.error .xdr, file')
        | .ok resXdr =>
          (.ok (.obj
            [("cost", cost),
             ("footprint", .obj [("readOnly", .arr (read_only.map .str)),
                                 ("readWrite", .arr (read_write.map .str))]),
             ("results", .arr [.obj [("xdr", .str resXdr)]]),
             ("latestLedger", .num 1)]), file')

/-! ## Contract data lookup (`get_contract_data`). -/

/-- Modelled from the spec: `utils.rs` is not among the provided sources.
The target identity is a 32-byte contract identifier given in hex (spec
§3, §4.6), so `utils::contract_id_from_str` decodes a hex string and
requires exactly 32 resulting bytes. -/
def contract_id_from_str (s : String) : Option (List Nat) :=
  match hexDecode s with
  | some bs => if bs.length = 32 then some bs else none
  | none => none

/-- Either a value returned normally, or a `panic!`/`unreachable!`. -/
inductive PanicOr (α : Type) where
  | panic
  | ret (a : α)

/-- Function `get_contract_data` of `serve.rs`: read the snapshot, decode the
contract id and the key, look the `ContractData` ledger key up through the
storage adapter, and render the entry; a ledger entry whose data is not of
the `ContractData` kind hits the `unreachable!()` arm. -/
def get_contract_data (codec : XdrCodec) (contract_id_hex : String) (key_xdr : String)
    (file : SnapshotFile) : PanicOr (Except Error Json) :=
  match snapshotRead file with
  | .error e => .ret (.error e)
  | .ok ledger_entries =>
    match contract_id_from_str contract_id_hex with
    | none => .ret (.error .fromHex)
    | some contract_id =>
      match codec.decodeVal key_xdr with
      | .error _ => .ret (.error .xdr)
      | .ok key =>
        match storageGet ledger_entries
            (.contractData { contract_id := contract_id, key := key }) with
        | .error e => .ret (.error e)
        | .ok ledger_entry =>
          match ledger_entry.data with
          | .contractData entry =>
            match codec.encVal entry.val with
            | .error _ => .ret (.error .xdr)
            | .ok value =>
              .ret (.ok (.obj
                [("xdr", .str value),
                 ("lastModifiedLedgerSeq", .num ledger_entry.last_modified_ledger_seq),
                 ("latestLedger", .num 1)]))
          | _ => .panic

/-! ## Reply construction (`reply`). -/

/-- The error-code table of `reply`. -/
def errCode : Error → Int
  | .serde => -32700
  | .unknownMethod => -32601
  | _ => -32603

/-- Function `reply` of `serve.rs`: wrap a result into a JSON-RPC success envelope,
or map an error through the fixed code table, with the id defaulting to
`Null`. -/
def reply (id : Option Id) (result : Except Error Json) : Response :=
  match result with
  | .ok res => .ok "2.0" (id.getD .null) res
  | .error err => .err "2.0" (id.getD .null) (errCode err) (errMessage err)

/-! ## The dispatcher (`handler`). -/

/-- First-match lookup in the status map (`HashMap::get`). -/
def lookupStr : List (String × Json) → String → Option Json
  | [], _ => none
  | (k, v) :: rest, q => if k = q then some v else lookupStr rest q

/-- Model of `HashMap::insert`: replace the bound value if the key is present,
else add the binding. -/
def insertStatus : List (String × Json) → String → Json → List (String × Json)
  | [], k, v => [(k, v)]
  | (k0, v0) :: rest, k, v =>
    if k0 = k then (k, v) :: rest else (k0, v0) :: insertStatus rest k v

/-- The mutable server state: the persisted ledger file and the in-memory
transaction status map (hex hash string → status JSON). -/
structure ServerState where
  file : SnapshotFile
  statusMap : List (String × Json)

/-- The dispatcher's configuration: the external codec and engine, and the
sandbox network passphrase (`SANDBOX_NETWORK_PASSPHRASE` from the network
module, carried as its UTF-8 bytes). -/
structure Config where
  codec : XdrCodec
  engine : Engine
  passphrase : List Nat

/-- The `"Transaction not found"` payload embedded (as a *successful*
result) when `getTransactionStatus` misses. -/
def notFoundJson : Json :=
  .obj [("error", .obj [("code", .num 404), ("message", .str "Transaction not found")])]

/-- The terminal success entry recorded by the sendTransaction branch. -/
def successStatusJson (id : String) (result : Json) : Json :=
  .obj [("id", .str id), ("status", .str "success"), ("results", .arr [result])]

/-- The terminal error entry recorded by the sendTransaction branch. -/
def errorStatusJson (id : String) : Json :=
  .obj [("id", .str id), ("status", .str "error"),
        ("error", .obj [("code", .num (-32603)), ("message", .str "Internal server error")])]

/-- The pending payload returned (not stored) by the sendTransaction
branch. -/
def pendingJson (id : String) : Json :=
  .obj [("id", .str id), ("status", .str "pending")]

/-- The fixed body answered when the request's `jsonrpc` field is not
`"2.0"`. -/
def invalidJsonrpcJson (id : Option Id) : Json :=
  .obj [("jsonrpc", .str "2.0"), ("id", optIdToJson id),
        ("error", .obj [("code", .num (-32600)),
                        ("message", .str "Invalid jsonrpc value in request")])]

/-- The method-dispatch match of `handler` over `(method, params)`: each
arm requires both the method name and the matching params variant; every
other combination is `Error::UnknownMethod`. Returns the raw handler
result (or a panic), the new server state, and the ordered list of writes
performed on the status map. -/
def handlerCore (cfg : Config) (st : ServerState) (method : String)
    (params : Option Requests) :
    PanicOr (Except Error Json) × ServerState × List (String × Json) :=
  if method = "getContractData" then
    match params with
    | some (.getContractData (contract_id, key)) =>
      (get_contract_data cfg.codec contract_id key st.file, st, [])
    | _ => (.ret (.error .unknownMethod), st, [])
  else if method = "getTransactionStatus" then
    match params with
    | some (.stringArg (hash :: _)) =>
      (.ret (.ok
        (match lookupStr st.statusMap hash with
         | some status => status
         | none => notFoundJson)), st, [])
    | some (.stringArg []) => (.ret (.error .xdr), st, [])
    | _ => (.ret (.error .unknownMethod), st, [])
  else if method = "simulateTransaction" then
    match params with
    | some (.stringArg (txn_xdr :: _)) =>
      (match parse_transaction cfg.codec txn_xdr cfg.passphrase with
       | .error e => (.ret (.error e), st, [])
       | .ok (_, args) =>
         let out := execute_transaction cfg.codec cfg.engine args st.file false
         (.ret out.1, { st with file := out.2 }, []))
    | some (.stringArg []) => (.ret (.error .xdr), st, [])
    | _ => (.ret (.error .unknownMethod), st, [])
  else if method = "sendTransaction" then
    match params with
    | some (.stringArg (txn_xdr :: _)) =>
      (match parse_transaction cfg.codec txn_xdr cfg.passphrase with
       | .error e => (.ret (.error e), st, [])
       | .ok (hash, args) =>
         let id := hexEncode hash
         let out := execute_transaction cfg.codec cfg.engine args st.file true
         let entry := match out.1 with
                      | .ok result => successStatusJson id result
                      | .error _ => errorStatusJson id
         (.ret (.ok (pendingJson id)),
          { file := out.2, statusMap := insertStatus st.statusMap id entry },
          [(id, entry)]))
    | some (.stringArg []) => (.ret (.error .xdr), st, [])
    | _ => (.ret (.error .unknownMethod), st, [])
  else (.ret (.error .unknownMethod), st, [])

/-- A processed request: the response body (or a panic), the server state
after the request, and the status-map writes performed, in order. -/
structure HandlerOut where
  body : PanicOr Json
  state : ServerState
  writes : List (String × Json)

/-- Function `handler` of `serve.rs`: reject a wrong `jsonrpc` field with the fixed
`-32600` body, otherwise dispatch on `(method, params)` and wrap the
result through `reply`. -/
def handler (cfg : Config) (request : Request) (st : ServerState) : HandlerOut :=
  if request.jsonrpc ≠ "2.0" then
    { body := .ret (invalidJsonrpcJson request.id), state := st, writes := [] }
  else
    match handlerCore cfg st request.method request.params with
    | (.panic, st', w) => { body := .panic, state := st', writes := w }
    | (.ret result, st', w) =>
      { body := .ret (responseToJson (reply request.id result)), state := st', writes := w }

/-! ## Concrete fixtures used by witnesses and counterexamples. -/

/-- A well-formed single-invoke-call envelope: one operation, `Call`,
a 32-byte contract id and a one-byte symbol method name. -/
def env0 : TransactionEnvelope :=
  .tx { tx := { source_account := .ed25519 (List.replicate 32 0)
                fee := 100
                seq_num := 1
                cond := .none
                memo := .none
                operations :=
                  [{ source_account := none
                     body := .invokeHostFunction
                       { function := .call
                         parameters := [.object (some (.bytes (List.replicate 32 7))),
                                        .symbol [109]] } }]
                ext := .v0 }
        signatures := [] }

/-- A codec that decodes every envelope string to a fixed envelope,
serializes every payload to the empty byte string, and serializes keys
and values to fixed short strings. -/
def mkCodec (e : TransactionEnvelope) : XdrCodec :=
  { decodeEnv := fun _ => .ok e
    decodeVal := fun _ => .ok (.u32 0)
    encPayload := fun _ => []
    encKey := fun _ => .ok "K"
    encVal := fun _ => .ok "V" }

/-- An engine that always succeeds with a fixed result and empty
footprint and delta. -/
def engine0 : Engine := fun _ _ => .success (.u32 7) [] [] 3 5

/-- An engine that always fails at invocation. -/
def engineInvokeErr : Engine := fun _ _ => .invokeErr 42

/-- An engine that always fails at finalization. -/
def engineFinishErr : Engine := fun _ _ => .finishErr

def cfg0 : Config := { codec := mkCodec env0, engine := engine0, passphrase := [] }

def st0 : ServerState := { file := .present [], statusMap := [] }

/-- The hash `parse_transaction` computes for `env0` under `mkCodec env0`:
SHA-256 of the empty payload serialization. -/
def hash0 : List Nat :=
  [0xe3, 0xb0, 0xc4, 0x42, 0x98, 0xfc, 0x1c, 0x14, 0x9a, 0xfb, 0xf4, 0xc8, 0x99, 0x6f, 0xb9, 0x24,
   0x27, 0xae, 0x41, 0xe4, 0x64, 0x9b, 0x93, 0x4c, 0xa4, 0x95, 0x99, 0x1b, 0x78, 0x52, 0xb8, 0x55]

/-- The canonical invocation extracted from `env0`. -/
def args0 : List ScVal :=
  [.object (some (.bytes (List.replicate 32 7))), .symbol [109]]

/-! ## SHA-256 output length. -/

theorem shaRound_length (st : List Nat) (kw : Nat × Nat) :
    (shaRound st kw).length = st.length := by
  unfold shaRound
  split
  · simp_all
  · rfl

theorem foldl_shaRound_length (l : List (Nat × Nat)) :
    ∀ st : List Nat, (l.foldl shaRound st).length = st.length := by
  induction l with
  | nil => intro st; rfl
  | cons p rest ih => intro st; rw [List.foldl_cons, ih, shaRound_length]

theorem shaCompress_length (hstate block : List Nat) :
    (shaCompress hstate block).length = hstate.length := by
  simp [shaCompress, foldl_shaRound_length]

theorem shaBlocks_length (n : Nat) :
    ∀ (hstate ws : List Nat), (shaBlocks hstate ws n).length = hstate.length := by
  induction n with
  | zero => intro hstate ws; rfl
  | succ n ih =>
    intro hstate ws
    show (shaBlocks (shaCompress hstate (ws.take 16)) (ws.drop 16) n).length = hstate.length
    rw [ih, shaCompress_length]

theorem stateBytes_length (ws : List Nat) : (stateBytes ws).length = 4 * ws.length := by
  induction ws with
  | nil => rfl
  | cons w rest ih =>
    show (be32 w ++ stateBytes rest).length = 4 * (rest.length + 1)
    rw [List.length_append, ih]
    simp [be32]
    ring

theorem sha256_length (msg : List Nat) : (sha256 msg).length = 32 := by
  show (stateBytes (shaBlocks sha256Init _ _)).length = 32
  rw [stateBytes_length, shaBlocks_length]
  rfl

/-! ## C3 -/

/-- Claim C3: for every envelope and passphrase, the transaction hash equals the
SHA-256 digest of the deterministically serialized signature payload
embedding (a) the 32-byte network identifier, itself SHA-256 of the
passphrase's UTF-8 bytes, and (b) the envelope's tagged transaction body
(`specTransactionHash`); the output is 32 bytes and two calls on identical
inputs yield identical output (the embedding is a pure function — no
randomness or clock dependency). -/
theorem hash_transaction_matches_spec (codec : XdrCodec) (envelope : TransactionEnvelope)
    (passphrase : List Nat) :
    hash_transaction_in_envelope codec envelope passphrase =
      specTransactionHash codec envelope passphrase ∧
    (hash_transaction_in_envelope codec envelope passphrase).length = 32 ∧
    hash_transaction_in_envelope codec envelope passphrase =
      hash_transaction_in_envelope codec envelope passphrase := by
  refine ⟨?_, ?_, rfl⟩
  · cases envelope <;> rfl
  · exact sha256_length _

/-! ## C2 -/

theorem parse_transaction_eq (codec : XdrCodec) (tx : String) (pass : List Nat)
    (env : TransactionEnvelope) (hdec : codec.decodeEnv tx = .ok env) :
    parse_transaction codec tx pass =
      (invocationOfOps (envOps env)).map
        (fun args => (hash_transaction_in_envelope codec env pass, args)) := by
  simp [parse_transaction, hdec, parseDecoded]

theorem invocationOfOps_len (ops : List Operation) (h : ops.length ≠ 1) :
    invocationOfOps ops = .error .xdr := by
  unfold invocationOfOps
  rw [if_pos h]

theorem invocationOfOps_notInvoke (op : Operation)
    (h : ∀ b, op.body ≠ .invokeHostFunction b) :
    invocationOfOps [op] = .error .xdr := by
  cases hb : op.body with
  | invokeHostFunction b => exact absurd hb (h b)
  | other t => simp [invocationOfOps, hb]

theorem invocationOfOps_notCall (op : Operation) (b : InvokeHostFunctionOp)
    (hb : op.body = .invokeHostFunction b) (h : b.function ≠ .call) :
    invocationOfOps [op] = .error .xdr := by
  simp [invocationOfOps, hb, h]

theorem invocationOfOps_fewParams (op : Operation) (b : InvokeHostFunctionOp)
    (hb : op.body = .invokeHostFunction b) (h : b.parameters.length < 2) :
    invocationOfOps [op] = .error .xdr := by
  by_cases hf : b.function = .call
  · simp [invocationOfOps, hb, hf, h]
  · simp [invocationOfOps, hb, hf]

theorem invocationOfOps_param0NotBytes (op : Operation) (b : InvokeHostFunctionOp)
    (v m : ScVal) (rest : List ScVal) (hb : op.body = .invokeHostFunction b)
    (hp : b.parameters = v :: m :: rest)
    (h : ∀ bs, v ≠ .object (some (.bytes bs))) :
    invocationOfOps [op] = .error .xdr := by
  by_cases hf : b.function = .call
  · cases v with
    | object o =>
      rcases o with _ | ob
      · simp [invocationOfOps, hb, hf, hp]
      · rcases ob with bs | t
        · exact absurd rfl (h bs)
        · simp [invocationOfOps, hb, hf, hp]
    | u63 n => simp [invocationOfOps, hb, hf, hp]
    | u32 n => simp [invocationOfOps, hb, hf, hp]
    | i32 n => simp [invocationOfOps, hb, hf, hp]
    | static s => simp [invocationOfOps, hb, hf, hp]
    | symbol sb => simp [invocationOfOps, hb, hf, hp]
    | bitset n => simp [invocationOfOps, hb, hf, hp]
    | status s => simp [invocationOfOps, hb, hf, hp]
  · simp [invocationOfOps, hb, hf]

theorem invocationOfOps_badIdLen (op : Operation) (b : InvokeHostFunctionOp)
    (bs : List Nat) (m : ScVal) (rest : List ScVal)
    (hb : op.body = .invokeHostFunction b)
    (hp : b.parameters = .object (some (.bytes bs)) :: m :: rest)
    (h : bs.length ≠ 32) :
    invocationOfOps [op] = .error .xdr := by
  by_cases hf : b.function = .call
  · simp [invocationOfOps, hb, hf, hp, h]
  · simp [invocationOfOps, hb, hf]

/-- Claim C2: decoding a transaction envelope returns an error — and hence no
partial invocation — whenever the envelope does not have exactly one
operation, or its single operation is not an invoke-host-function
operation, or the function selector is not the generic `Call`
discriminator, or the operation has fewer than two parameters, or
parameter 0 is not a byte object of exactly 32 bytes. -/
theorem parse_rejects_malformed (codec : XdrCodec) (tx : String) (pass : List Nat)
    (env : TransactionEnvelope) (hdec : codec.decodeEnv tx = .ok env) :
    ((envOps env).length ≠ 1 → parse_transaction codec tx pass = .error .xdr) ∧
    (∀ op, envOps env = [op] → (∀ b, op.body ≠ .invokeHostFunction b) →
      parse_transaction codec tx pass = .error .xdr) ∧
    (∀ op b, envOps env = [op] → op.body = .invokeHostFunction b → b.function ≠ .call →
      parse_transaction codec tx pass = .error .xdr) ∧
    (∀ op b, envOps env = [op] → op.body = .invokeHostFunction b →
      b.parameters.length < 2 → parse_transaction codec tx pass = .error .xdr) ∧
    (∀ op b v m rest, envOps env = [op] → op.body = .invokeHostFunction b →
      b.parameters = v :: m :: rest → (∀ bs, v ≠ .object (some (.bytes bs))) →
      parse_transaction codec tx pass = .error .xdr) ∧
    (∀ op b bs m rest, envOps env = [op] → op.body = .invokeHostFunction b →
      b.parameters = .object (some (.bytes bs)) :: m :: rest → bs.length ≠ 32 →
      parse_transaction codec tx pass = .error .xdr) := by
  have hp := parse_transaction_eq codec tx pass env hdec
  refine ⟨fun h => ?_, fun op hops h => ?_, fun op b hops hb h => ?_,
          fun op b hops hb h => ?_, fun op b v m rest hops hb hpar h => ?_,
          fun op b bs m rest hops hb hpar h => ?_⟩
  · rw [hp, invocationOfOps_len _ h]; rfl
  · rw [hp, hops, invocationOfOps_notInvoke op h]; rfl
  · rw [hp, hops, invocationOfOps_notCall op b hb h]; rfl
  · rw [hp, hops, invocationOfOps_fewParams op b hb h]; rfl
  · rw [hp, hops, invocationOfOps_param0NotBytes op b v m rest hb hpar h]; rfl
  · rw [hp, hops, invocationOfOps_badIdLen op b bs m rest hb hpar h]; rfl

/-- A transaction body with the given operations, otherwise like `env0`. -/
def mkTxEnv (ops : List Operation) : TransactionEnvelope :=
  .tx { tx := { source_account := .ed25519 (List.replicate 32 0)
                fee := 100
                seq_num := 1
                cond := .none
                memo := .none
                operations := ops
                ext := .v0 }
        signatures := [] }

def envNoOps : TransactionEnvelope := mkTxEnv []

def opOther : Operation := { source_account := none, body := .other 0 }

def envWrongOp : TransactionEnvelope := mkTxEnv [opOther]

def opWrongFn : Operation :=
  { source_account := none
    body := .invokeHostFunction { function := .createContract, parameters := args0 } }

def envWrongFn : TransactionEnvelope := mkTxEnv [opWrongFn]

def opOneParam : Operation :=
  { source_account := none
    body := .invokeHostFunction
      { function := .call, parameters := [.object (some (.bytes (List.replicate 32 7)))] } }

def envOneParam : TransactionEnvelope := mkTxEnv [opOneParam]

def op31 : Operation :=
  { source_account := none
    body := .invokeHostFunction
      { function := .call
        parameters := [.object (some (.bytes (List.replicate 31 7))), .symbol [109]] } }

def env31 : TransactionEnvelope := mkTxEnv [op31]

def opParam0Sym : Operation :=
  { source_account := none
    body := .invokeHostFunction
      { function := .call, parameters := [.symbol [1], .symbol [109]] } }

def envParam0Sym : TransactionEnvelope := mkTxEnv [opParam0Sym]

theorem parse_rejects_malformed_witness :
    (mkCodec envNoOps).decodeEnv "T" = .ok envNoOps ∧
    parse_transaction (mkCodec envNoOps) "T" [] = .error .xdr ∧
    parse_transaction (mkCodec envWrongOp) "T" [] = .error .xdr ∧
    parse_transaction (mkCodec envWrongFn) "T" [] = .error .xdr ∧
    parse_transaction (mkCodec envOneParam) "T" [] = .error .xdr ∧
    parse_transaction (mkCodec envParam0Sym) "T" [] = .error .xdr ∧
    parse_transaction (mkCodec env31) "T" [] = .error .xdr :=
  ⟨rfl,
   (parse_rejects_malformed _ "T" [] envNoOps rfl).1 (by decide),
   (parse_rejects_malformed _ "T" [] envWrongOp rfl).2.1 opOther rfl
     (fun b h => nomatch h),
   (parse_rejects_malformed _ "T" [] envWrongFn rfl).2.2.1 opWrongFn
     { function := .createContract, parameters := args0 } rfl rfl (by decide),
   (parse_rejects_malformed _ "T" [] envOneParam rfl).2.2.2.1 opOneParam
     { function := .call, parameters := [.object (some (.bytes (List.replicate 32 7)))] }
     rfl rfl (by decide),
   (parse_rejects_malformed _ "T" [] envParam0Sym rfl).2.2.2.2.1 opParam0Sym
     { function := .call, parameters := [.symbol [1], .symbol [109]] }
     (.symbol [1]) (.symbol [109]) [] rfl rfl rfl (fun bs h => nomatch h),
   (parse_rejects_malformed _ "T" [] env31 rfl).2.2.2.2.2 op31
     { function := .call
       parameters := [.object (some (.bytes (List.replicate 31 7))), .symbol [109]] }
     (List.replicate 31 7) (.symbol [109]) [] rfl rfl rfl (by decide)⟩

/-! ## C6 -/

/-- Replace parameter 1 of an invoke-host-function operation; leave other
operations unchanged. -/
def setOpParam1 (v : ScVal) (op : Operation) : Operation :=
  match op.body with
  | .invokeHostFunction b =>
    { source_account := op.source_account
      body := .invokeHostFunction { function := b.function, parameters := b.parameters.set 1 v } }
  | _ => op

/-- Replace parameter 1 (the method-name parameter) throughout an
envelope, leaving everything else identical. -/
def setParam1 (env : TransactionEnvelope) (v : ScVal) : TransactionEnvelope :=
  match env with
  | .txV0 e =>
    .txV0 { e with tx := { e.tx with operations := e.tx.operations.map (setOpParam1 v) } }
  | .tx e =>
    .tx { e with tx := { e.tx with operations := e.tx.operations.map (setOpParam1 v) } }
  | .txFeeBump e =>
    .txFeeBump
      { e with tx :=
        { e.tx with inner_tx :=
          match e.tx.inner_tx with
          | .tx ie =>
            .tx { ie with tx :=
              { ie.tx with operations := ie.tx.operations.map (setOpParam1 v) } } } }

theorem envOps_setParam1 (env : TransactionEnvelope) (v : ScVal) :
    envOps (setParam1 env v) = (envOps env).map (setOpParam1 v) := by
  cases env with
  | txV0 e => rfl
  | tx e => rfl
  | txFeeBump e => cases h : e.tx.inner_tx with
    | tx ie => simp [setParam1, envOps, h]

/-- The two method-name representations decode identically: a byte object
and a symbol carrying the same bytes both pass through the same UTF-8
check and yield the same bytes. -/
theorem methodDecode_bytes_symbol (b : List Nat) :
    methodDecode (.object (some (.bytes b))) = methodDecode (.symbol b) := rfl

theorem invocationOfOps_cons (sa : Option MuxedAccount) (f : HostFunction)
    (p0 m : ScVal) (rest : List ScVal) :
    invocationOfOps
      [{ source_account := sa
         body := .invokeHostFunction { function := f, parameters := p0 :: m :: rest } }] =
      (if f ≠ HostFunction.call then .error .xdr
       else
        match p0 with
        | .object (some (.bytes bytes)) =>
          if bytes.length = 32 then
            match methodDecode m with
            | .error e => .error e
            | .ok method =>
              if method.length ≤ scSymbolLimit then
                .ok (.object (some (.bytes bytes)) :: .symbol method :: rest)
              else .error .xdr
          else .error .xdr
        | _ => .error .xdr) := by
  by_cases hf : f = HostFunction.call
  · simp [invocationOfOps, hf]
  · simp [invocationOfOps, hf]

theorem invocationOfOps_setParam1 (ops : List Operation) (b : List Nat) :
    invocationOfOps (ops.map (setOpParam1 (.object (some (.bytes b))))) =
    invocationOfOps (ops.map (setOpParam1 (.symbol b))) := by
  match ops with
  | [] => rfl
  | op1 :: op2 :: rest =>
    rw [invocationOfOps_len _ (by simp), invocationOfOps_len _ (by simp)]
  | [op] =>
    obtain ⟨sa, body⟩ := op
    cases body with
    | other t => rfl
    | invokeHostFunction b0 =>
      obtain ⟨f, params⟩ := b0
      match params with
      | [] => rfl
      | [p0] => rfl
      | p0 :: m :: rest =>
        show invocationOfOps
            [{ source_account := sa
               body := .invokeHostFunction
                 { function := f, parameters := p0 :: .object (some (.bytes b)) :: rest } }] =
          invocationOfOps
            [{ source_account := sa
               body := .invokeHostFunction
                 { function := f, parameters := p0 :: .symbol b :: rest } }]
        rw [invocationOfOps_cons, invocationOfOps_cons, methodDecode_bytes_symbol]

theorem parseDecoded_snd (codec : XdrCodec) (env : TransactionEnvelope) (pass : List Nat) :
    (parseDecoded codec env pass).map Prod.snd = invocationOfOps (envOps env) := by
  unfold parseDecoded
  cases invocationOfOps (envOps env) <;> rfl

/-- Claim C6: two envelopes identical except that the method-name parameter
(parameter 1) is encoded once as a raw byte sequence and once as a
symbol-typed value decode to the same canonical invocation (the hash —
dropped by `Prod.snd` — reflects the differing wire bytes, but target,
method name and argument list agree, with identical success/failure); the
last two conjuncts exhibit the two representation paths of
`methodDecode`, the byte-sequence pattern standing first in its match. -/
theorem method_dual_encoding (codec : XdrCodec) (env : TransactionEnvelope)
    (pass : List Nat) (b : List Nat) :
    (parseDecoded codec (setParam1 env (.object (some (.bytes b)))) pass).map Prod.snd =
      (parseDecoded codec (setParam1 env (.symbol b)) pass).map Prod.snd ∧
    methodDecode (.object (some (.bytes b))) =
      (if utf8Valid b then .ok b else .error .xdr) ∧
    methodDecode (.symbol b) = (if utf8Valid b then .ok b else .error .xdr) := by
  refine ⟨?_, rfl, rfl⟩
  rw [parseDecoded_snd, parseDecoded_snd, envOps_setParam1, envOps_setParam1]
  exact invocationOfOps_setParam1 (envOps env) b

/-! ## C4 -/

/-- Claim C4: execution failures never commit. If reading the snapshot fails, or
the engine invocation fails, or host finalization fails,
`execute_transaction` returns the error and the persisted snapshot file is
exactly what it was — for both `commit = true` and `commit = false`. -/
theorem execute_no_commit_on_failure (codec : XdrCodec) (engine : Engine) (args : List ScVal)
    (file : SnapshotFile) (commit : Bool) :
    (∀ e, snapshotRead file = .error e →
      execute_transaction codec engine args file commit = (.error e, file)) ∧
    (∀ entries e, snapshotRead file = .ok entries → engine args entries = .invokeErr e →
      execute_transaction codec engine args file commit = (.error (.host e), file)) ∧
    (∀ entries, snapshotRead file = .ok entries → engine args entries = .finishErr →
      execute_transaction codec engine args file commit =
        (.error (.host hostStorageUnknownErr), file)) := by
  refine ⟨fun e h => ?_, fun entries e hr he => ?_, fun entries hr he => ?_⟩
  · simp [execute_transaction, h]
  · simp [execute_transaction, hr, he]
  · simp [execute_transaction, hr, he]

theorem execute_no_commit_on_failure_witness :
    snapshotRead (SnapshotFile.present []) = .ok ([] : List (LedgerKey × LedgerEntry)) ∧
    engineInvokeErr args0 [] = .invokeErr 42 ∧
    execute_transaction (mkCodec env0) engineInvokeErr args0 (.present []) true =
      (.error (.host 42), .present []) ∧
    engineFinishErr args0 [] = .finishErr ∧
    execute_transaction (mkCodec env0) engineFinishErr args0 (.present []) false =
      (.error (.host hostStorageUnknownErr), .present []) ∧
    snapshotRead SnapshotFile.corrupt = .error .snapshot ∧
    execute_transaction (mkCodec env0) engine0 args0 .corrupt true =
      (.error .snapshot, .corrupt) :=
  ⟨rfl, rfl,
   (execute_no_commit_on_failure (mkCodec env0) engineInvokeErr args0 (.present []) true).2.1
     [] 42 rfl rfl,
   rfl,
   (execute_no_commit_on_failure (mkCodec env0) engineFinishErr args0 (.present []) false).2.2
     [] rfl rfl,
   rfl,
   (execute_no_commit_on_failure (mkCodec env0) engine0 args0 .corrupt true).1 .snapshot rfl⟩

/-! ## C5 -/

theorem execute_false_file (codec : XdrCodec) (engine : Engine) (args : List ScVal)
    (file : SnapshotFile) :
    (execute_transaction codec engine args file false).2 = file := by
  unfold execute_transaction
  split
  · rfl
  · split
    · rfl
    · rfl
    · split
      · rfl
      · split
        · simp_all
        · split <;> rfl

theorem handlerCore_simulate (cfg : Config) (st : ServerState) (tx : String)
    (rest : List String) :
    handlerCore cfg st "simulateTransaction" (some (.stringArg (tx :: rest))) =
      (match parse_transaction cfg.codec tx cfg.passphrase with
       | .error e => (.ret (.error e), st, [])
       | .ok (_, args) =>
         let out := execute_transaction cfg.codec cfg.engine args st.file false
         (.ret out.1, { st with file := out.2 }, [])) := by
  unfold handlerCore
  rw [if_neg (by decide), if_neg (by decide), if_pos rfl]

theorem handler_simulate (cfg : Config) (st : ServerState) (id : Option Id) (tx : String)
    (rest : List String) :
    handler cfg ⟨"2.0", id, "simulateTransaction", some (.stringArg (tx :: rest))⟩ st =
      { body := .ret (responseToJson (reply id
          (match parse_transaction cfg.codec tx cfg.passphrase with
           | .error e => .error e
           | .ok (_, args) => (execute_transaction cfg.codec cfg.engine args st.file false).1)))
        state := st
        writes := [] } := by
  unfold handler
  rw [if_neg (by simp), handlerCore_simulate]
  cases hpt : parse_transaction cfg.codec tx cfg.passphrase with
  | error e => rfl
  | ok pr =>
    obtain ⟨h, args⟩ := pr
    show HandlerOut.mk _ { file := (execute_transaction cfg.codec cfg.engine args st.file false).2
                           statusMap := st.statusMap } [] = _
    rw [execute_false_file]

theorem execute_ok_fields (codec : XdrCodec) (engine : Engine) (args : List ScVal)
    (file : SnapshotFile) (commit : Bool) (j : Json)
    (h : (execute_transaction codec engine args file commit).1 = .ok j) :
    (∃ c, jGetField j "cost" = some c) ∧ (∃ f, jGetField j "footprint" = some f) ∧
    (∃ r, jGetField j "results" = some r) := by
  unfold execute_transaction at h
  split at h
  · simp at h
  · split at h
    · simp at h
    · simp at h
    · split at h
      · simp at h
      · split at h <;> split at h
        · simp at h
        · simp only [Except.ok.injEq] at h
          subst h
          exact ⟨⟨_, rfl⟩, ⟨_, rfl⟩, ⟨_, rfl⟩⟩
        · simp at h
        · simp only [Except.ok.injEq] at h
          subst h
          exact ⟨⟨_, rfl⟩, ⟨_, rfl⟩, ⟨_, rfl⟩⟩

/-- Claim C5: every simulateTransaction request runs with `commit = false`: the
server state (persisted snapshot file and status map) after the request
equals the state before it, no status-map write happens, the response body
does not depend on the status map at all (the branch never reads it), and
a successful execution's result still carries the `cost`, `footprint` and
`results` payloads. -/
theorem simulate_frame (cfg : Config) (st : ServerState) (id : Option Id) (tx : String)
    (rest : List String) :
    (handler cfg ⟨"2.0", id, "simulateTransaction", some (.stringArg (tx :: rest))⟩ st).state
      = st ∧
    (handler cfg ⟨"2.0", id, "simulateTransaction", some (.stringArg (tx :: rest))⟩ st).writes
      = [] ∧
    (∀ m : List (String × Json),
      (handler cfg ⟨"2.0", id, "simulateTransaction", some (.stringArg (tx :: rest))⟩
          { file := st.file, statusMap := m }).body =
        (handler cfg ⟨"2.0", id, "simulateTransaction", some (.stringArg (tx :: rest))⟩
          st).body) ∧
    (∀ args j, (execute_transaction cfg.codec cfg.engine args st.file false).1 = .ok j →
      (∃ c, jGetField j "cost" = some c) ∧ (∃ f, jGetField j "footprint" = some f) ∧
      (∃ r, jGetField j "results" = some r)) := by
  refine ⟨?_, ?_, fun m => ?_, fun args j h => execute_ok_fields _ _ _ _ _ _ h⟩
  · rw [handler_simulate]
  · rw [handler_simulate]
  · rw [handler_simulate, handler_simulate]

/-- The result JSON of `execute_transaction` on the concrete fixture. -/
def jExec0 : Json :=
  .obj [("cost", .obj [("cpuInsns", .str "3"), ("memBytes", .str "5")]),
        ("footprint", .obj [("readOnly", .arr []), ("readWrite", .arr [])]),
        ("results", .arr [.obj [("xdr", .str "V")]]),
        ("latestLedger", .num 1)]

theorem simulate_frame_witness :
    (execute_transaction cfg0.codec cfg0.engine args0 st0.file false).1 = .ok jExec0 ∧
    (handler cfg0 ⟨"2.0", some (.num 1), "simulateTransaction", some (.stringArg ["T"])⟩
      st0).state = st0 ∧
    ((∃ c, jGetField jExec0 "cost" = some c) ∧
     (∃ f, jGetField jExec0 "footprint" = some f) ∧
     (∃ r, jGetField jExec0 "results" = some r)) :=
  ⟨rfl,
   (simulate_frame cfg0 st0 (some (.num 1)) "T" []).1,
   (simulate_frame cfg0 st0 (some (.num 1)) "T" []).2.2.2 args0 jExec0 rfl⟩

/-! ## C7 -/

theorem handlerCore_unknown (cfg : Config) (st : ServerState) (method : String)
    (params : Option Requests)
    (h1 : method ≠ "getContractData") (h2 : method ≠ "getTransactionStatus")
    (h3 : method ≠ "simulateTransaction") (h4 : method ≠ "sendTransaction") :
    handlerCore cfg st method params = (.ret (.error .unknownMethod), st, []) := by
  unfold handlerCore
  rw [if_neg h1, if_neg h2, if_neg h3, if_neg h4]

theorem handlerCore_status (cfg : Config) (st : ServerState) (key : String)
    (rest : List String) :
    handlerCore cfg st "getTransactionStatus" (some (.stringArg (key :: rest))) =
      (.ret (.ok
        (match lookupStr st.statusMap key with
         | some status => status
         | none => notFoundJson)), st, []) := by
  unfold handlerCore
  rw [if_neg (by decide), if_pos rfl]

/-- Claim C7: the dispatcher's fixed error-code table. A `jsonrpc` field other
than `"2.0"` is answered with the fixed `-32600` body; a method outside
the four dispatched ones yields the `UnknownMethod` error, which `reply`
maps to `-32601`; `reply` maps a serde error to `-32700` and every other
internal error to `-32603`; and a `getTransactionStatus` miss is a
*successful* JSON-RPC envelope whose result embeds an error payload with
code `404`. -/
theorem dispatcher_error_codes :
    (∀ (cfg : Config) (req : Request) (st : ServerState), req.jsonrpc ≠ "2.0" →
      handler cfg req st = ⟨.ret (invalidJsonrpcJson req.id), st, []⟩ ∧
      jErrCode (invalidJsonrpcJson req.id) = some (-32600)) ∧
    (∀ (cfg : Config) (st : ServerState) (id : Option Id) (m : String)
        (p : Option Requests),
      m ≠ "getContractData" → m ≠ "getTransactionStatus" → m ≠ "simulateTransaction" →
      m ≠ "sendTransaction" →
      handler cfg ⟨"2.0", id, m, p⟩ st =
        ⟨.ret (responseToJson (.err "2.0" (id.getD .null) (-32601) "unknownmethod")),
         st, []⟩) ∧
    (∀ (id : Option Id) (e : Error),
      reply id (.error e) = .err "2.0" (id.getD .null) (errCode e) (errMessage e)) ∧
    errCode .serde = -32700 ∧ errCode .unknownMethod = -32601 ∧
    (∀ e : Error, e ≠ .serde → e ≠ .unknownMethod → errCode e = -32603) ∧
    (∀ (cfg : Config) (st : ServerState) (id : Option Id) (key : String)
        (rest : List String),
      lookupStr st.statusMap key = none →
      handler cfg ⟨"2.0", id, "getTransactionStatus", some (.stringArg (key :: rest))⟩ st =
        ⟨.ret (responseToJson (.ok "2.0" (id.getD .null) notFoundJson)), st, []⟩ ∧
      jErrCode notFoundJson = some 404) := by
  refine ⟨fun cfg req st h => ⟨?_, rfl⟩,
          fun cfg st id m p h1 h2 h3 h4 => ?_,
          fun id e => rfl, rfl, rfl,
          fun e h1 h2 => ?_,
          fun cfg st id key rest h => ⟨?_, rfl⟩⟩
  · unfold handler
    rw [if_pos h]
  · unfold handler
    rw [if_neg (by simp), handlerCore_unknown cfg st m p h1 h2 h3 h4]
    rfl
  · cases e
    case serde => exact absurd rfl h1
    case unknownMethod => exact absurd rfl h2
    all_goals rfl
  · unfold handler
    rw [if_neg (by simp), handlerCore_status, h]
    rfl

theorem dispatcher_error_codes_witness :
    ("1.0" : String) ≠ "2.0" ∧
    handler cfg0 ⟨"1.0", some (.num 1), "sendTransaction", some (.stringArg ["T"])⟩ st0 =
      ⟨.ret (invalidJsonrpcJson (some (.num 1))), st0, []⟩ ∧
    ("noSuchMethod" : String) ≠ "getContractData" ∧
    handler cfg0 ⟨"2.0", some (.num 2), "noSuchMethod", none⟩ st0 =
      ⟨.ret (responseToJson (.err "2.0" (.num 2) (-32601) "unknownmethod")), st0, []⟩ ∧
    Error.io ≠ Error.serde ∧ errCode .io = -32603 ∧
    lookupStr st0.statusMap "deadbeef" = none ∧
    handler cfg0 ⟨"2.0", some (.num 3), "getTransactionStatus",
        some (.stringArg ["deadbeef"])⟩ st0 =
      ⟨.ret (responseToJson (.ok "2.0" (.num 3) notFoundJson)), st0, []⟩ :=
  ⟨by decide,
   (dispatcher_error_codes.1 cfg0
     ⟨"1.0", some (.num 1), "sendTransaction", some (.stringArg ["T"])⟩ st0 (by decide)).1,
   by decide,
   dispatcher_error_codes.2.1 cfg0 st0 (some (.num 2)) "noSuchMethod" none
     (by decide) (by decide) (by decide) (by decide),
   by decide,
   dispatcher_error_codes.2.2.2.2.2.1 .io (by decide) (by decide),
   rfl,
   (dispatcher_error_codes.2.2.2.2.2.2 cfg0 st0 (some (.num 3)) "deadbeef" [] rfl).1⟩

/-! ## C9 -/

/-- Claim C9: a request for `getTransactionStatus`, `simulateTransaction` or
`sendTransaction` whose params array holds exactly two strings is
deserialized — by the declaration-ordered untagged `Requests` decoding —
into the `GetContractData` shape, so no dispatch arm matches and the
request fails as `UnknownMethod`, which `reply` maps to code `-32601`;
the intended method is never dispatched. -/
theorem two_string_params_unknown (cfg : Config) (st : ServerState) (id : Option Id)
    (m a b : String)
    (hm : m = "getTransactionStatus" ∨ m = "simulateTransaction" ∨ m = "sendTransaction") :
    paramsOfStringArray [a, b] = .getContractData (a, b) ∧
    handler cfg ⟨"2.0", id, m, some (paramsOfStringArray [a, b])⟩ st =
      ⟨.ret (responseToJson (.err "2.0" (id.getD .null) (-32601) "unknownmethod")),
       st, []⟩ := by
  refine ⟨rfl, ?_⟩
  have hcore : handlerCore cfg st m (some (.getContractData (a, b))) =
      (.ret (.error .unknownMethod), st, []) := by
    rcases hm with h | h | h <;> subst h <;> unfold handlerCore
    · rw [if_neg (by decide), if_pos rfl]
    · rw [if_neg (by decide), if_neg (by decide), if_pos rfl]
    · rw [if_neg (by decide), if_neg (by decide), if_neg (by decide), if_pos rfl]
  unfold handler
  rw [if_neg (by simp)]
  show (match handlerCore cfg st m (some (.getContractData (a, b))) with
        | (.panic, st', w) => HandlerOut.mk .panic st' w
        | (.ret result, st', w) =>
          HandlerOut.mk (.ret (responseToJson (reply id result))) st' w) = _
  rw [hcore]
  rfl

theorem two_string_params_unknown_witness :
    (("getTransactionStatus" : String) = "getTransactionStatus" ∨
     ("getTransactionStatus" : String) = "simulateTransaction" ∨
     ("getTransactionStatus" : String) = "sendTransaction") ∧
    handler cfg0 ⟨"2.0", some (.num 4), "getTransactionStatus",
        some (paramsOfStringArray ["deadbeef", "extra"])⟩ st0 =
      ⟨.ret (responseToJson (.err "2.0" (.num 4) (-32601) "unknownmethod")), st0, []⟩ :=
  ⟨Or.inl rfl,
   (two_string_params_unknown cfg0 st0 (some (.num 4)) "getTransactionStatus"
     "deadbeef" "extra" (Or.inl rfl)).2⟩

/-! ## C1 and C8: the sendTransaction status lifecycle. -/

theorem handlerCore_send (cfg : Config) (st : ServerState) (tx : String)
    (rest : List String) :
    handlerCore cfg st "sendTransaction" (some (.stringArg (tx :: rest))) =
      (match parse_transaction cfg.codec tx cfg.passphrase with
       | .error e => (.ret (.error e), st, [])
       | .ok (hash, args) =>
         let id := hexEncode hash
         let out := execute_transaction cfg.codec cfg.engine args st.file true
         let entry := match out.1 with
                      | .ok result => successStatusJson id result
                      | .error _ => errorStatusJson id
         (.ret (.ok (pendingJson id)),
          { file := out.2, statusMap := insertStatus st.statusMap id entry },
          [(id, entry)])) := by
  unfold handlerCore
  rw [if_neg (by decide), if_neg (by decide), if_neg (by decide), if_pos rfl]

/-- The full effect of a sendTransaction request on an envelope accepted
by `parse_transaction`. -/
theorem handler_send_eq (cfg : Config) (st : ServerState) (id : Option Id) (tx : String)
    (rest : List String) (h : List Nat) (args : List ScVal)
    (hp : parse_transaction cfg.codec tx cfg.passphrase = .ok (h, args)) :
    handler cfg ⟨"2.0", id, "sendTransaction", some (.stringArg (tx :: rest))⟩ st =
      { body := .ret (responseToJson (reply id (.ok (pendingJson (hexEncode h)))))
        state :=
          { file := (execute_transaction cfg.codec cfg.engine args st.file true).2
            statusMap := insertStatus st.statusMap (hexEncode h)
              (match (execute_transaction cfg.codec cfg.engine args st.file true).1 with
               | .ok result => successStatusJson (hexEncode h) result
               | .error _ => errorStatusJson (hexEncode h)) }
        writes := [(hexEncode h,
          (match (execute_transaction cfg.codec cfg.engine args st.file true).1 with
           | .ok result => successStatusJson (hexEncode h) result
           | .error _ => errorStatusJson (hexEncode h)))] } := by
  unfold handler
  rw [if_neg (by simp)]
  show (match handlerCore cfg st "sendTransaction" (some (.stringArg (tx :: rest))) with
        | (.panic, st', w) => HandlerOut.mk .panic st' w
        | (.ret result, st', w) =>
          HandlerOut.mk (.ret (responseToJson (reply id result))) st' w) = _
  rw [handlerCore_send, hp]

/-- The full effect of a getTransactionStatus request. -/
theorem handler_status_eq (cfg : Config) (st : ServerState) (id : Option Id)
    (key : String) (rest : List String) :
    handler cfg ⟨"2.0", id, "getTransactionStatus", some (.stringArg (key :: rest))⟩ st =
      { body := .ret (responseToJson (.ok "2.0" (id.getD .null)
          (match lookupStr st.statusMap key with
           | some status => status
           | none => notFoundJson)))
        state := st
        writes := [] } := by
  unfold handler
  rw [if_neg (by simp)]
  show (match handlerCore cfg st "getTransactionStatus" (some (.stringArg (key :: rest))) with
        | (.panic, st', w) => HandlerOut.mk .panic st' w
        | (.ret result, st', w) =>
          HandlerOut.mk (.ret (responseToJson (reply id result))) st' w) = _
  rw [handlerCore_status]
  cases lookupStr st.statusMap key <;> rfl

theorem lookupStr_insertStatus (m : List (String × Json)) (k : String) (v : Json) :
    lookupStr (insertStatus m k v) k = some v := by
  induction m with
  | nil => simp [insertStatus, lookupStr]
  | cons p rest ih =>
    obtain ⟨k0, v0⟩ := p
    by_cases hk : k0 = k
    · simp [insertStatus, hk, lookupStr]
    · simp [insertStatus, hk, lookupStr, ih]

def req0 : Request := ⟨"2.0", some (.num 1), "sendTransaction", some (.stringArg ["T"])⟩

/-- Claim C1, counterexample: on a concrete valid envelope submitted via
sendTransaction, the dispatcher performs exactly one status-map write, and
that write is already the terminal `success` entry — no `Pending` entry is
ever recorded (before execution or at all), refuting the claimed
record-Pending-then-overwrite sequence; `pending` exists only in the
response payload. -/
theorem sendTransaction_no_pending_write :
    ((handler cfg0 req0 st0).writes.map (fun p => jStatusField p.2)) = [some "success"] ∧
    (∀ p ∈ (handler cfg0 req0 st0).writes, jStatusField p.2 ≠ some "pending") := by
  exact ⟨by decide, by decide⟩

/-- Claim C1, amended: for every envelope accepted by `parse_transaction`, the
sendTransaction branch records no `Pending` entry in the status map at any
point; it executes (with commit) and then writes the terminal `success` or
`error` entry under the transaction's hash as the single status-map write
of the request, while the `pending` status appears only in the returned
payload. -/
theorem sendTransaction_single_terminal_write (cfg : Config) (st : ServerState)
    (id : Option Id) (tx : String) (rest : List String) (h : List Nat) (args : List ScVal)
    (hp : parse_transaction cfg.codec tx cfg.passphrase = .ok (h, args)) :
    ∃ entry,
      (handler cfg ⟨"2.0", id, "sendTransaction", some (.stringArg (tx :: rest))⟩ st).writes
        = [(hexEncode h, entry)] ∧
      (jStatusField entry = some "success" ∨ jStatusField entry = some "error") ∧
      jStatusField entry ≠ some "pending" ∧
      (handler cfg ⟨"2.0", id, "sendTransaction",
          some (.stringArg (tx :: rest))⟩ st).state.statusMap
        = insertStatus st.statusMap (hexEncode h) entry ∧
      (handler cfg ⟨"2.0", id, "sendTransaction", some (.stringArg (tx :: rest))⟩ st).body
        = .ret (responseToJson
            (.ok "2.0" (id.getD .null) (pendingJson (hexEncode h)))) := by
  rw [handler_send_eq cfg st id tx rest h args hp]
  cases he : (execute_transaction cfg.codec cfg.engine args st.file true).1 with
  | ok r =>
    exact ⟨successStatusJson (hexEncode h) r, rfl, Or.inl rfl,
      fun hq => absurd (Option.some.inj hq) (by decide), rfl, rfl⟩
  | error e =>
    exact ⟨errorStatusJson (hexEncode h), rfl, Or.inr rfl,
      fun hq => absurd (Option.some.inj hq) (by decide), rfl, rfl⟩

theorem sendTransaction_single_terminal_write_witness :
    parse_transaction cfg0.codec "T" cfg0.passphrase = .ok (hash0, args0) ∧
    (∃ entry,
      (handler cfg0 req0 st0).writes = [(hexEncode hash0, entry)] ∧
      (jStatusField entry = some "success" ∨ jStatusField entry = some "error") ∧
      jStatusField entry ≠ some "pending" ∧
      (handler cfg0 req0 st0).state.statusMap =
        insertStatus st0.statusMap (hexEncode hash0) entry ∧
      (handler cfg0 req0 st0).body = .ret (responseToJson
        (.ok "2.0" (.num 1) (pendingJson (hexEncode hash0))))) :=
  ⟨by decide,
   sendTransaction_single_terminal_write cfg0 st0 (some (.num 1)) "T" [] hash0 args0
     (by decide)⟩

/-- Claim C8: once sendTransaction has returned on an accepted envelope, a
getTransactionStatus query for the envelope's hash finds the stored entry:
it answers with that entry (whose status is `pending`, `success` or
`error` — in fact terminal), and never with the not-found payload. -/
theorem send_then_status (cfg : Config) (st : ServerState) (id id2 : Option Id)
    (tx : String) (rest : List String) (h : List Nat) (args : List ScVal)
    (hp : parse_transaction cfg.codec tx cfg.passphrase = .ok (h, args)) :
    ∃ entry,
      lookupStr ((handler cfg ⟨"2.0", id, "sendTransaction",
          some (.stringArg (tx :: rest))⟩ st).state.statusMap) (hexEncode h) = some entry ∧
      (handler cfg ⟨"2.0", id2, "getTransactionStatus",
          some (.stringArg [hexEncode h])⟩
        (handler cfg ⟨"2.0", id, "sendTransaction",
          some (.stringArg (tx :: rest))⟩ st).state).body
        = .ret (responseToJson (.ok "2.0" (id2.getD .null) entry)) ∧
      (jStatusField entry = some "pending" ∨ jStatusField entry = some "success" ∨
        jStatusField entry = some "error") ∧
      entry ≠ notFoundJson := by
  rw [handler_send_eq cfg st id tx rest h args hp]
  cases he : (execute_transaction cfg.codec cfg.engine args st.file true).1 with
  | ok r =>
    refine ⟨successStatusJson (hexEncode h) r, lookupStr_insertStatus _ _ _, ?_,
      Or.inr (Or.inl rfl), ?_⟩
    · rw [handler_status_eq]
      simp only [lookupStr_insertStatus]
    · intro hq
      have h2 : (some "success" : Option String) = none := by
        rw [show (some "success" : Option String) =
              jStatusField (successStatusJson (hexEncode h) r) from rfl, hq]
        rfl
      exact Option.noConfusion h2
  | error e =>
    refine ⟨errorStatusJson (hexEncode h), lookupStr_insertStatus _ _ _, ?_,
      Or.inr (Or.inr rfl), ?_⟩
    · rw [handler_status_eq]
      simp only [lookupStr_insertStatus]
    · intro hq
      have h2 : (some "error" : Option String) = none := by
        rw [show (some "error" : Option String) =
              jStatusField (errorStatusJson (hexEncode h)) from rfl, hq]
        rfl
      exact Option.noConfusion h2

theorem send_then_status_witness :
    parse_transaction cfg0.codec "T" cfg0.passphrase = .ok (hash0, args0) ∧
    (∃ entry,
      lookupStr ((handler cfg0 req0 st0).state.statusMap) (hexEncode hash0) = some entry ∧
      (handler cfg0 ⟨"2.0", some (.num 2), "getTransactionStatus",
          some (.stringArg [hexEncode hash0])⟩ (handler cfg0 req0 st0).state).body
        = .ret (responseToJson (.ok "2.0" (.num 2) entry)) ∧
      (jStatusField entry = some "pending" ∨ jStatusField entry = some "success" ∨
        jStatusField entry = some "error") ∧
      entry ≠ notFoundJson) :=
  ⟨by decide,
   send_then_status cfg0 st0 (some (.num 1)) (some (.num 2)) "T" [] hash0 args0 (by decide)⟩

/-! ## C10 -/

/-- Claim C10: if the storage lookup under the constructed `ContractData` ledger
key succeeds but the returned ledger entry's data is not of the
`ContractData` kind, `get_contract_data` hits the `unreachable!()` arm and
panics instead of returning an error — its totality rests on the snapshot
invariant that `ContractData` keys map only to `ContractData` entries. -/
theorem get_contract_data_panics (codec : XdrCodec) (file : SnapshotFile)
    (entries : List (LedgerKey × LedgerEntry)) (cidHex : String) (cid : List Nat)
    (keyXdr : String) (key : ScVal) (entry : LedgerEntry)
    (hr : snapshotRead file = .ok entries)
    (hc : contract_id_from_str cidHex = some cid)
    (hk : codec.decodeVal keyXdr = .ok key)
    (hg : lookupKey entries (.contractData { contract_id := cid, key := key }) = some entry)
    (hd : entry.data.isContractData = false) :
    get_contract_data codec cidHex keyXdr file = .panic := by
  cases hdd : entry.data with
  | contractData e =>
    rw [hdd] at hd
    simp [LedgerEntryData.isContractData] at hd
  | other t =>
    simp [get_contract_data, hr, hc, hk, storageGet, hg, hdd]

def cid0 : List Nat := List.replicate 32 0

def cidHex0 : String := String.mk (List.replicate 64 '0')

def entryBad : LedgerEntry := { last_modified_ledger_seq := 5, data := .other 3 }

def fileBad : SnapshotFile :=
  .present [(.contractData { contract_id := cid0, key := .u32 0 }, entryBad)]

theorem get_contract_data_panics_witness :
    snapshotRead fileBad =
      .ok [(.contractData { contract_id := cid0, key := .u32 0 }, entryBad)] ∧
    contract_id_from_str cidHex0 = some cid0 ∧
    (mkCodec env0).decodeVal "k" = .ok (.u32 0) ∧
    lookupKey [(.contractData { contract_id := cid0, key := .u32 0 }, entryBad)]
      (.contractData { contract_id := cid0, key := .u32 0 }) = some entryBad ∧
    entryBad.data.isContractData = false ∧
    get_contract_data (mkCodec env0) cidHex0 "k" fileBad = .panic :=
  ⟨rfl, by decide, rfl, by decide, rfl,
   get_contract_data_panics (mkCodec env0) fileBad
     [(.contractData { contract_id := cid0, key := .u32 0 }, entryBad)]
     cidHex0 cid0 "k" (.u32 0) entryBad rfl (by decide) rfl (by decide) rfl⟩

end Serve
